import Mathlib

/-!
Verification of the hierarchical-consensus gateway actor
(`consensus-shipyard/hierarchical_sca`) against its natural-language
specification.

The Rust sources are shallowly embedded:

* persistent HAMT/AMT containers become association lists (`List (κ × ν)`),
* `u16`/`u64` values become `Nat` (with explicit `% 2 ^ 64` where the source
  relies on wrapping arithmetic),
* `ChainEpoch` (an `i64`) becomes `Int`,
* fallible Rust functions returning `anyhow::Result`/`Result<_, ActorError>`
  become `Except String`; an `unwrap!`/`unreachable!` panic in the source is
  embedded as an `Except.error` of its own.

Every definition is translated from the corresponding Rust item, whose path
is named in its doc comment.  The few items whose source file is not part of
the repository snapshot (the `ipc_sdk` `SubnetID` methods and the gateway
`types.rs` constants) are modelled from the specification and say so in their
doc comments.
-/

namespace HSCA

/-! ## Addresses and subnet identifiers -/

/-- Model of `fvm_shared::address::Address`: an opaque actor identifier. -/
abbrev Address := Nat

/-- Modelled from the spec: "SubnetID: ordered sequence of addresses from
root to leaf".  The implementation (`ipc_sdk::subnet_id`, not part of the
snapshot) stores the route and renders it as the path `/addr0/addr1/...`. -/
structure SubnetID where
  route : List Address
deriving DecidableEq, Repr

/-- Longest shared route of two subnet identifiers; used to model
`SubnetID::common_parent` ("longest shared prefix" in the spec). -/
def commonRoute : List Address → List Address → List Address
  | x :: xs, y :: ys => if x = y then x :: commonRoute xs ys else []
  | _, _ => []

/-- Modelled from the spec: `common_parent(other)` returns the longest shared
prefix of the two routes.  The implementation walks the rendered paths
component by component; since both rendered paths begin with the root
directory component `/`, a common parent always exists, and the returned
index (position of the last shared path component) equals the length of the
shared route (the root component occupies index 0). -/
def SubnetID.common_parent (a b : SubnetID) : Option (Nat × SubnetID) :=
  let p := commonRoute a.route b.route
  some (p.length, ⟨p⟩)

/-- Modelled from the spec: the subnet actor of a subnet is the last address
of its route (the address appended by `new_from_parent`). -/
def SubnetID.subnet_actor (s : SubnetID) : Address :=
  (s.route.getLast?).getD 0

/-- Modelled from the spec: child subnet identifier obtained by appending the
child's actor address to the parent's route (`SubnetID::new_from_parent`). -/
def SubnetID.new_from_parent (parent : SubnetID) (a : Address) : SubnetID :=
  ⟨parent.route ++ [a]⟩

/-- From `sdk/src/address.rs` (`IPCAddress`, called `HierarchicalAddress` in
`src/src/cross.rs`): a subnet identifier together with a raw address. -/
structure IPCAddress where
  subnet_id : SubnetID
  raw_address : Address
deriving DecidableEq, Repr

/-- `IPCAddress::subnet` (`sdk/src/address.rs`); the Rust function is
infallible (`Ok` of a clone). -/
def IPCAddress.subnet (a : IPCAddress) : SubnetID := a.subnet_id

/-- `IPCAddress::raw_addr` (`sdk/src/address.rs`). -/
def IPCAddress.raw_addr (a : IPCAddress) : Address := a.raw_address

/-! ## Cross messages (`src/src/cross.rs`) -/

/-- `HCMsgType` from `src/src/cross.rs` (re-exported as `IPCMsgType`). -/
inductive HCMsgType where
  | Unknown
  | BottomUp
  | TopDown
deriving DecidableEq, Repr

/-- `StorableMsg` from `src/src/cross.rs`.  `RawBytes` params are a byte
list, `TokenAmount` is a non-negative integer amount, the nonce is a `u64`. -/
structure StorableMsg where
  from_ : IPCAddress
  to_ : IPCAddress
  method : Nat
  params : List Nat
  value : Nat
  nonce : Nat
deriving DecidableEq, Repr

/-- `is_bottomup` from `src/src/cross.rs`: compare the number of path
components of `from` (minus the root component) with the index returned by
`common_parent`.  `Path::new(&a).components().count() - 1` is the length of
the route. -/
def is_bottomup (sfrom sto : SubnetID) : Bool :=
  match sfrom.common_parent sto with
  | none => false
  | some (index, _) => sfrom.route.length > index

/-- `StorableMsg::hc_type` from `src/src/cross.rs`.  The Rust function only
fails if `subnet()` fails, which it never does. -/
def StorableMsg.hc_type (m : StorableMsg) : HCMsgType :=
  if is_bottomup m.from_.subnet m.to_.subnet then .BottomUp else .TopDown

/-- `StorableMsg::apply_type` from `src/src/cross.rs`: bottom-up exactly when
the common parent of (current, to) coincides with the common parent of
(from, to) and the raw direction is bottom-up; otherwise top-down. -/
def StorableMsg.apply_type (m : StorableMsg) (curr : SubnetID) : HCMsgType :=
  if curr.common_parent m.to_.subnet = m.from_.subnet.common_parent m.to_.subnet
      ∧ m.hc_type = .BottomUp then
    .BottomUp
  else
    .TopDown

end HSCA

namespace HSCA

/-! ## Association-list model of the persistent HAMT containers

Iteration order of a HAMT is immaterial for the claims below; lookup,
insertion and deletion are all that the embedded code uses. -/

/-- Find the value bound to `k`, if any. -/
def alistGet {κ ν : Type} [DecidableEq κ] (l : List (κ × ν)) (k : κ) : Option ν :=
  match l with
  | [] => none
  | (k', v) :: rest => if k' = k then some v else alistGet rest k

/-- Bind `k` to `v`, replacing an existing binding (`Hamt::set`). -/
def alistSet {κ ν : Type} [DecidableEq κ] (l : List (κ × ν)) (k : κ) (v : ν) :
    List (κ × ν) :=
  match l with
  | [] => [(k, v)]
  | (k', v') :: rest =>
    if k' = k then (k, v) :: rest else (k', v') :: alistSet rest k v

/-- Delete the binding of `k`, if any (`Hamt::delete`). -/
def alistDelete {κ ν : Type} [DecidableEq κ] (l : List (κ × ν)) (k : κ) :
    List (κ × ν) :=
  match l with
  | [] => []
  | (k', v') :: rest =>
    if k' = k then rest else (k', v') :: alistDelete rest k

/-- Equality of embedded call results is decidable, so concrete runs can be
checked by evaluation. -/
instance {ε α : Type} [DecidableEq ε] [DecidableEq α] : DecidableEq (Except ε α) :=
  fun a b =>
    match a, b with
    | .ok x, .ok y =>
      if h : x = y then .isTrue (by rw [h])
      else .isFalse (by intro hc; cases hc; exact h rfl)
    | .error x, .error y =>
      if h : x = y then .isTrue (by rw [h])
      else .isFalse (by intro hc; cases hc; exact h rfl)
    | .ok _, .error _ => .isFalse (by intro hc; cases hc)
    | .error _, .ok _ => .isFalse (by intro hc; cases hc)

/-! ## Cron checkpoints and vote tallying (`src/gateway/src/cron.rs`) -/

/-- `HashOutput` from `src/gateway/src/cron.rs`: a byte vector. -/
abbrev HashOutput := List Nat

/-- `RATIO_NUMERATOR` from `src/gateway/src/cron.rs`. -/
def RATIO_NUMERATOR : Nat := 2

/-- `RATIO_DENOMINATOR` from `src/gateway/src/cron.rs`. -/
def RATIO_DENOMINATOR : Nat := 3

/-- `ipc_sdk::Validator` as used by the gateway tests: an address with a
stake weight (network address omitted; it plays no role here). -/
structure Validator where
  addr : Address
  weight : Nat
deriving DecidableEq, Repr

/-- `Validators` from `src/gateway/src/cron.rs`: the validator map together
with the cached total count. -/
structure Validators where
  total_count : Nat
  validators : List (Address × Validator)
deriving DecidableEq, Repr

/-- `Validators::new` from `src/gateway/src/cron.rs`. -/
def Validators.new : Validators := ⟨0, []⟩

/-- `CronCheckpoint` from `src/gateway/src/cron.rs`. -/
structure CronCheckpoint where
  epoch : Int
  top_down_msgs : List StorableMsg
deriving DecidableEq, Repr

/-- The ascending-nonce validation loop of `CronCheckpoint::hash`
(`src/gateway/src/cron.rs`): each adjacent pair of top-down messages is
compared with `Ordering::cmp` on the nonce and anything other than
`Ordering::Less` is rejected. -/
def checkNonceOrder : List StorableMsg → Except String Unit
  | [] => Except.ok ()
  | [_] => Except.ok ()
  | a :: b :: rest =>
    match compare a.nonce b.nonce with
    | Ordering.lt => checkNonceOrder (b :: rest)
    | Ordering.eq => Except.error "top down messages not distinct"
    | Ordering.gt => Except.error "top down messages not sorted"

/-- `CronCheckpoint::hash` from `src/gateway/src/cron.rs`: validate that the
nonces are strictly ascending, then digest the canonical serialization with
Blake2b-256.  Serialization and Blake2b live in external crates and are
abstracted as the `digest` parameter. -/
def CronCheckpoint.hash (digest : CronCheckpoint → HashOutput)
    (c : CronCheckpoint) : Except String HashOutput := do
  checkNonceOrder c.top_down_msgs
  Except.ok (digest c)

/-- `VoteExecutionStatus` from `src/gateway/src/cron.rs`. -/
inductive VoteExecutionStatus where
  | ThresholdNotReached
  | ReachingConsensus
  | RoundAbort
  | ConsensusReached
deriving DecidableEq, Repr

/-- `CronSubmission` from `src/gateway/src/cron.rs`.  `total_submissions` is
a `u16` counter; the three HAMTs become association lists. -/
structure CronSubmission where
  total_submissions : Nat
  most_voted_hash : Option HashOutput
  submitters : List (Address × Unit)
  submission_counts : List (HashOutput × Nat)
  submissions : List (HashOutput × CronCheckpoint)
deriving DecidableEq, Repr

/-- `CronSubmission::new` from `src/gateway/src/cron.rs`. -/
def CronSubmission.new : CronSubmission := ⟨0, none, [], [], []⟩

/-- `CronSubmission::abort` from `src/gateway/src/cron.rs`: reset everything
except the `submissions` map, which is kept for deduplication. -/
def CronSubmission.abort (s : CronSubmission) : CronSubmission :=
  { s with
    total_submissions := 0
    submitters := []
    most_voted_hash := none
    submission_counts := [] }

/-- `CronSubmission::update_submitters` from `src/gateway/src/cron.rs`:
reject a repeated submitter, otherwise record it and bump the counter. -/
def CronSubmission.update_submitters (s : CronSubmission) (submitter : Address) :
    Except String (CronSubmission × Nat) :=
  match alistGet s.submitters submitter with
  | some _ => Except.error "already submitted"
  | none =>
    let total := s.total_submissions + 1
    Except.ok
      ({ s with
          submitters := alistSet s.submitters submitter ()
          total_submissions := total }, total)

/-- `CronSubmission::insert_checkpoint` from `src/gateway/src/cron.rs`:
hash the checkpoint and store it under its hash unless already present. -/
def CronSubmission.insert_checkpoint (digest : CronCheckpoint → HashOutput)
    (s : CronSubmission) (checkpoint : CronCheckpoint) :
    Except String (CronSubmission × HashOutput) := do
  let hash ← checkpoint.hash digest
  match alistGet s.submissions hash with
  | some _ => Except.ok (s, hash)
  | none =>
    Except.ok ({ s with submissions := alistSet s.submissions hash checkpoint }, hash)

/-- `CronSubmission::update_submission_count` from `src/gateway/src/cron.rs`:
bump the count of `hash`, then update `most_voted_hash` when the new count
strictly exceeds the count of the current most voted hash.  The source reads
the most voted count with `.unwrap()`; its absence is embedded as an error. -/
def CronSubmission.update_submission_count (s : CronSubmission)
    (hash : HashOutput) : Except String (CronSubmission × Nat) :=
  let new_count :=
    match alistGet s.submission_counts hash with
    | some v => v + 1
    | none => 1
  let counts := alistSet s.submission_counts hash new_count
  match s.most_voted_hash with
  | none =>
    Except.ok
      ({ s with submission_counts := counts, most_voted_hash := some hash },
        new_count)
  | some most_submitted_hash =>
    if most_submitted_hash = hash then
      Except.ok ({ s with submission_counts := counts }, new_count)
    else
      match alistGet counts most_submitted_hash with
      | none => Except.error "most voted count missing"
      | some most_submitted_count =>
        if new_count > most_submitted_count then
          Except.ok
            ({ s with
                submission_counts := counts
                most_voted_hash := some hash }, new_count)
        else
          Except.ok ({ s with submission_counts := counts }, most_submitted_count)

/-- `CronSubmission::submit` from `src/gateway/src/cron.rs`. -/
def CronSubmission.submit (digest : CronCheckpoint → HashOutput)
    (s : CronSubmission) (submitter : Address) (checkpoint : CronCheckpoint) :
    Except String (CronSubmission × Nat) := do
  let (s, _) ← s.update_submitters submitter
  let (s, checkpoint_hash) ← CronSubmission.insert_checkpoint digest s checkpoint
  s.update_submission_count checkpoint_hash

/-- `CronSubmission::get_submission` from `src/gateway/src/cron.rs`. -/
def CronSubmission.get_submission (s : CronSubmission) (hash : HashOutput) :
    Option CronCheckpoint :=
  alistGet s.submissions hash

/-- `CronSubmission::load_most_submitted_checkpoint` from
`src/gateway/src/cron.rs`. -/
def CronSubmission.load_most_submitted_checkpoint (s : CronSubmission) :
    Option CronCheckpoint :=
  match s.most_voted_hash with
  | some hash => s.get_submission hash
  | none => none

/-- `CronSubmission::derive_execution_status` from `src/gateway/src/cron.rs`.
All quantities are `u16` counts: the number of validators, the number of
submissions received so far and the count of the most voted hash.  The
threshold multiplication is `u16` arithmetic, hence the `% 2 ^ 16`; the two
subtractions cannot underflow on the states the actor reaches (the most
voted count is at most the threshold in the branch where the subtraction
happens, and submissions never exceed the validator count). -/
def CronSubmission.derive_execution_status (s : CronSubmission)
    (total_validators most_voted_count : Nat) : VoteExecutionStatus :=
  let threshold := total_validators * RATIO_NUMERATOR % 2 ^ 16 / RATIO_DENOMINATOR
  if s.total_submissions ≤ threshold then
    .ThresholdNotReached
  else if most_voted_count > threshold then
    .ConsensusReached
  else if threshold - most_voted_count ≥ total_validators - s.total_submissions then
    .RoundAbort
  else
    .ReachingConsensus

end HSCA

namespace HSCA

/-! ## Checkpoints (`src/src/checkpoint.rs` and the gateway checkpoint type) -/

/-- Model of `cid::Cid`: an opaque content identifier.  `0` stands for
`TCid::default()`. -/
abbrev Cid := Nat

/-- `TCid::default()`, the placeholder link stored before anything is
flushed. -/
def defaultCid : Cid := 0

/-- `ChildCheck` from `src/src/checkpoint.rs`: the checkpoint links committed
by one child subnet into a window checkpoint. -/
structure ChildCheck where
  source : SubnetID
  checks : List Cid
deriving DecidableEq, Repr

/-- Modelled from the spec: the gateway checkpoint's `cross_msgs` field,
"`cross_msgs: { batch | metas, fee }`" — a link to the batch of bottom-up
messages together with the total value they move and the declared fee.  The
gateway's own `checkpoint.rs` is not part of the snapshot; `lib.rs` reads
exactly the fields `msgs_cid`, `value` and `fee` from it. -/
structure BatchCrossMsgs where
  msgs_cid : Cid
  value : Nat
  fee : Nat
deriving DecidableEq, Repr

/-- `CheckData` from `src/src/checkpoint.rs` (with the gateway's
`cross_msgs` batch field): the signed-over payload of a checkpoint. -/
structure CheckData where
  source : SubnetID
  tip_set : List Nat
  epoch : Int
  prev_check : Cid
  children : List ChildCheck
  cross_msgs : Option BatchCrossMsgs
deriving DecidableEq, Repr

/-- `Checkpoint` from `src/src/checkpoint.rs`: payload plus signature bytes.
`Checkpoint::cid` hashes only `data`, never `sig`; the Blake2b/CBOR digest
is abstracted as a `cidOf : CheckData → Cid` parameter below. -/
structure Checkpoint where
  data : CheckData
  sig : List Nat
deriving DecidableEq, Repr

/-- `CheckData::new` from `src/src/checkpoint.rs`. -/
def CheckData.new (id : SubnetID) (epoch : Int) : CheckData :=
  { source := id
    tip_set := []
    epoch := epoch
    prev_check := defaultCid
    children := []
    cross_msgs := none }

/-- `Checkpoint::new` from `src/src/checkpoint.rs`. -/
def Checkpoint.new (id : SubnetID) (epoch : Int) : Checkpoint :=
  { data := CheckData.new id epoch, sig := [] }

/-- The body of `Checkpoint::add_child_check` (`src/src/checkpoint.rs`):
find the `ChildCheck` entry of the committing subnet; reject the CID if it
was already committed, otherwise append it; create a fresh entry when the
subnet has none. -/
def addChildCid (source : SubnetID) (cid : Cid) :
    List ChildCheck → Except String (List ChildCheck)
  | [] => Except.ok [⟨source, [cid]⟩]
  | ck :: rest =>
    if ck.source = source then
      if cid ∈ ck.checks then
        Except.error "child checkpoint being committed already exists"
      else
        Except.ok ({ ck with checks := ck.checks ++ [cid] } :: rest)
    else do
      let rest' ← addChildCid source cid rest
      Except.ok (ck :: rest')

/-- `Checkpoint::add_child_check` from `src/src/checkpoint.rs`. -/
def Checkpoint.add_child_check (cidOf : CheckData → Cid) (ch commit : Checkpoint) :
    Except String Checkpoint := do
  let children ← addChildCid commit.data.source (cidOf commit.data) ch.data.children
  Except.ok { ch with data := { ch.data with children := children } }

/-- `checkpoint_epoch` from `src/src/checkpoint.rs`: `(epoch / period) *
period` in `i64` arithmetic. -/
def checkpoint_epoch (epoch period : Int) : Int :=
  epoch.tdiv period * period

/-- `window_epoch` from `src/src/checkpoint.rs`: `period * (epoch / period +
1)` in `i64` arithmetic. -/
def window_epoch (epoch period : Int) : Int :=
  period * (epoch.tdiv period + 1)

/-! ## Subnets and gateway state (`src/gateway/src/state.rs`) -/

/-- `Status` of a subnet (`src/gateway/src/subnet.rs` is not in the
snapshot; the spec lists `Active`, `Inactive`, `Killed`). -/
inductive Status where
  | Active
  | Inactive
  | Killed
deriving DecidableEq, Repr

/-- `CrossMsg`: a `StorableMsg` plus the `wrapped` flag (spec §3; the
gateway `cross.rs` defining it is not in the snapshot). -/
structure CrossMsg where
  msg : StorableMsg
  wrapped : Bool
deriving DecidableEq, Repr

/-- `Subnet` as constructed by `State::register_subnet`
(`src/gateway/src/state.rs`): id, stake, top-down queue, circulating supply,
status, next top-down nonce and the previously committed child checkpoint. -/
structure Subnet where
  id : SubnetID
  stake : Nat
  top_down_msgs : List CrossMsg
  circ_supply : Nat
  status : Status
  nonce : Nat
  prev_checkpoint : Option Checkpoint
deriving DecidableEq, Repr

/-- Modelled from the spec: `Subnet::release_supply` subtracts the released
value from the circulating supply, failing when the supply is insufficient
(the `subnet.rs` source is not in the snapshot). -/
def Subnet.release_supply (sub : Subnet) (value : Nat) : Except String Subnet :=
  if value ≤ sub.circ_supply then
    Except.ok { sub with circ_supply := sub.circ_supply - value }
  else
    Except.error "not enough circulating supply"

/-- `u64::MAX`, the initial `applied_bottomup_nonce` (`MAX_NONCE` in the
missing gateway `types.rs`; `State::new` documents it as `u64::MAX`). -/
def U64MAX : Nat := 2 ^ 64 - 1

/-- `DEFAULT_CHECKPOINT_PERIOD` from the gateway `types.rs` (not in the
snapshot).  Modelled from the spec and the gateway tests, which commit at
epoch 10 and find the window checkpoint at epoch `DEFAULT_CHECKPOINT_PERIOD`. -/
def DEFAULT_CHECKPOINT_PERIOD : Int := 10

/-- `MIN_COLLATERAL_AMOUNT` (gateway `types.rs`, not in the snapshot): one
FIL in atto units, the registration collateral. -/
def MIN_COLLATERAL_AMOUNT : Nat := 10 ^ 18

/-- `ConstructorParams` from the gateway `types.rs` (not in the snapshot);
the four fields are listed by the spec's Constructor row.  The network name
arrives as a string and is parsed with `SubnetID::from_str`; it is modelled
directly as a `SubnetID`. -/
structure ConstructorParams where
  network_name : SubnetID
  checkpoint_period : Int
  genesis_epoch : Int
  cron_period : Int
deriving DecidableEq, Repr

/-- `State` from `src/gateway/src/state.rs` (the postbox, which no claim
touches, is omitted).  The `executable_epoch_queue` models the
`Option<BTreeSet<ChainEpoch>>` as an optional strictly sorted list. -/
structure State where
  network_name : SubnetID
  total_subnets : Nat
  min_stake : Nat
  subnets : List (SubnetID × Subnet)
  check_period : Int
  checkpoints : List (Int × Checkpoint)
  nonce : Nat
  bottomup_nonce : Nat
  bottomup_msg_meta : List BatchCrossMsgs
  applied_bottomup_nonce : Nat
  applied_topdown_nonce : Nat
  genesis_epoch : Int
  cron_period : Int
  last_cron_executed_epoch : Int
  executable_epoch_queue : Option (List Int)
  cron_submissions : List (Int × CronSubmission)
  validators : Validators
deriving DecidableEq, Repr

/-- `State::new` from `src/gateway/src/state.rs`: note the clamp of
`check_period` to at least `DEFAULT_CHECKPOINT_PERIOD`, the
`applied_bottomup_nonce` initialised to `u64::MAX`, and
`last_cron_executed_epoch` initialised to the genesis epoch. -/
def State.new (params : ConstructorParams) : State :=
  { network_name := params.network_name
    total_subnets := 0
    min_stake := MIN_COLLATERAL_AMOUNT
    subnets := []
    check_period :=
      if params.checkpoint_period > DEFAULT_CHECKPOINT_PERIOD then
        params.checkpoint_period
      else
        DEFAULT_CHECKPOINT_PERIOD
    checkpoints := []
    nonce := 0
    bottomup_nonce := 0
    bottomup_msg_meta := []
    applied_bottomup_nonce := U64MAX
    applied_topdown_nonce := 0
    genesis_epoch := params.genesis_epoch
    cron_period := params.cron_period
    last_cron_executed_epoch := params.genesis_epoch
    executable_epoch_queue := none
    cron_submissions := []
    validators := Validators.new }

/-- `State::get_window_checkpoint` from `src/gateway/src/state.rs`: reject
negative epochs, then retrieve — or create empty — the checkpoint stored at
`checkpoint_epoch(epoch, check_period)`. -/
def State.get_window_checkpoint (st : State) (epoch : Int) :
    Except String Checkpoint :=
  if epoch < 0 then
    Except.error "epoch can't be negative"
  else
    let ch_epoch := checkpoint_epoch epoch st.check_period
    match alistGet st.checkpoints ch_epoch with
    | some ch => Except.ok ch
    | none => Except.ok (Checkpoint.new st.network_name ch_epoch)

/-- `State::flush_checkpoint` from `src/gateway/src/state.rs`
(`set_checkpoint` keys the map by the checkpoint's epoch). -/
def State.flush_checkpoint (st : State) (ch : Checkpoint) : State :=
  { st with checkpoints := alistSet st.checkpoints ch.data.epoch ch }

/-- `State::flush_subnet` from `src/gateway/src/state.rs`. -/
def State.flush_subnet (st : State) (sub : Subnet) : State :=
  { st with subnets := alistSet st.subnets sub.id sub }

/-- Modelled from the spec: `State::store_bottomup_msg` persists the
bottom-up batch meta at the next `bottomup_nonce` and advances the nonce
(the gateway function body is not in the snapshot). -/
def State.store_bottomup_msg (st : State) (b : BatchCrossMsgs) : State :=
  { st with
    bottomup_msg_meta := st.bottomup_msg_meta ++ [b]
    bottomup_nonce := st.bottomup_nonce + 1 }

/-- `State::bottomup_state_transition` from `src/gateway/src/state.rs`: the
applied bottom-up nonce is (a) initialised from `u64::MAX` to 0, or (b)
advanced by a wrapping increment when the message carries the next nonce,
and the message is accepted exactly when the resulting nonce equals the
message's nonce. -/
def State.bottomup_state_transition (st : State) (msg : StorableMsg) :
    Except String State :=
  let applied :=
    if st.applied_bottomup_nonce = U64MAX ∧ msg.nonce = 0 then
      0
    else if (st.applied_bottomup_nonce + 1) % 2 ^ 64 = msg.nonce then
      (st.applied_bottomup_nonce + 1) % 2 ^ 64
    else
      st.applied_bottomup_nonce
  if applied ≠ msg.nonce then
    Except.error "the bottom-up message being applied doesn't hold the subsequent nonce"
  else
    Except.ok { st with applied_bottomup_nonce := applied }

/-- Insertion into the sorted-list model of `BTreeSet<ChainEpoch>`. -/
def btreeInsert (e : Int) : List Int → List Int
  | [] => [e]
  | x :: xs =>
    if e < x then e :: x :: xs
    else if e = x then x :: xs
    else x :: btreeInsert e xs

/-- `State::insert_executable_epoch` from `src/gateway/src/state.rs`. -/
def State.insert_executable_epoch (st : State) (epoch : Int) : State :=
  { st with
    executable_epoch_queue :=
      match st.executable_epoch_queue with
      | none => some [epoch]
      | some queue => some (btreeInsert epoch queue) }

end HSCA

namespace HSCA

/-! ## Gateway actor calls (`src/gateway/src/lib.rs`)

Each call runs inside `rt.transaction`: on success the mutated state is
committed, on error every mutation is rolled back, which the functional
embedding renders by returning `Except.error` without a state. -/

/-- The tail of `Actor::commit_child_check` (`src/gateway/src/lib.rs`) after
the verification checks have passed: commit the cross-message batch (persist
bottom-up metas when the batch link is non-default, release circulating
supply, pick up the declared fee), append the child checkpoint CID to the
window checkpoint, flush the checkpoint and the updated subnet. -/
def Actor.commit_child_rest (cidOf : CheckData → Cid) (st : State)
    (sub : Subnet) (ch commit : Checkpoint) : Except String (State × Nat) :=
  let stsubfee : Except String (State × Subnet × Nat) :=
    match commit.data.cross_msgs with
    | some cross_msg =>
      let st :=
        if cross_msg.msgs_cid ≠ defaultCid then st.store_bottomup_msg cross_msg
        else st
      match sub.release_supply cross_msg.value with
      | Except.error e => Except.error e
      | Except.ok sub => Except.ok (st, sub, cross_msg.fee)
    | none => Except.ok (st, sub, 0)
  match stsubfee with
  | Except.error e => Except.error e
  | Except.ok (st, sub, fee) =>
    match ch.add_child_check cidOf commit with
    | Except.error e => Except.error e
    | Except.ok ch =>
      let st := st.flush_checkpoint ch
      let sub := { sub with prev_checkpoint := some commit }
      let st := st.flush_subnet sub
      Except.ok (st, fee)

/-- `Actor::commit_child_check` from `src/gateway/src/lib.rs` (the
transaction body; caller authentication reduces to comparing the caller with
the source's subnet actor).  Returns the new state together with the fee to
distribute to the child subnet actor.  `cidOf` abstracts
`Checkpoint::cid` (`src/src/checkpoint.rs`), the Blake2b-256 CID of the
checkpoint's data fields (the signature is excluded).  On any error the
enclosing `rt.transaction` rolls every mutation back, which the embedding
renders by returning no state at all. -/
def Actor.commit_child_check (cidOf : CheckData → Cid) (st : State)
    (caller : Address) (curr_epoch : Int) (commit : Checkpoint) :
    Except String (State × Nat) :=
  if commit.data.source.subnet_actor ≠ caller then
    Except.error "source in checkpoint doesn't belong to subnet"
  else
    let shid := st.network_name.new_from_parent caller
    match alistGet st.subnets shid with
    | none => Except.error "subnet not registered"
    | some sub =>
      if sub.status ≠ Status.Active then
        Except.error "can't commit checkpoint for an inactive subnet"
      else
        match st.get_window_checkpoint curr_epoch with
        | Except.error e => Except.error e
        | Except.ok ch =>
          match sub.prev_checkpoint with
          | some prev_checkpoint =>
            if prev_checkpoint.data.epoch > commit.data.epoch then
              Except.error "checkpoint being committed belongs to the past"
            else if commit.data.prev_check ≠ cidOf prev_checkpoint.data then
              Except.error "previous checkpoint not consistent with previous one"
            else
              Actor.commit_child_rest cidOf st sub ch commit
          | none => Actor.commit_child_rest cidOf st sub ch commit

/-- `Actor::handle_cron_submission` from `src/gateway/src/lib.rs`: load (or
create) the epoch's `CronSubmission`, apply the submission, derive the
execution status, and on `ConsensusReached` either execute immediately (when
the epoch is the successor of `last_cron_executed_epoch`) or defer it into
`executable_epoch_queue`.  Returns the messages to dispatch, if any.

The snapshot's `lib.rs` passes the submitter's stake weight and the cached
total validator weight into the tally, but the snapshot's `cron.rs` tally is
count-based (`CronSubmission::submit` takes no weight and
`derive_execution_status` takes the `u16` validator count); the embedding
follows the `cron.rs` signatures and feeds them the validator count.

`st.cron_submissions` models the persistent HAMT root, reassigned only by
the trailing `st.cron_submissions = TCid::from(hamt.flush()?)`.  In the
deferred-consensus branch the source performs `hamt.set(epoch_key,
submission)` but then `return Ok(None)` EARLY, skipping that flush: the
in-memory `set` never reaches the persistent root, so the branch keeps
`cron_submissions` unchanged and only the `insert_executable_epoch` queue
write (a plain `State` field) survives. -/
def Actor.handle_cron_submission (digest : CronCheckpoint → HashOutput)
    (st : State) (checkpoint : CronCheckpoint) (submitter : Address) :
    Except String (State × Option (List StorableMsg)) := do
  let total := st.validators.total_count
  let params_epoch := checkpoint.epoch
  let submission :=
    match alistGet st.cron_submissions params_epoch with
    | some s => s
    | none => CronSubmission.new
  let (submission, most_voted_count) ← submission.submit digest submitter checkpoint
  let execution_status := submission.derive_execution_status total most_voted_count
  match execution_status with
  | .ThresholdNotReached | .ReachingConsensus =>
    Except.ok
      ({ st with
          cron_submissions := alistSet st.cron_submissions params_epoch submission },
        none)
  | .RoundAbort =>
    let submission := submission.abort
    Except.ok
      ({ st with
          cron_submissions := alistSet st.cron_submissions params_epoch submission },
        none)
  | .ConsensusReached =>
    if st.last_cron_executed_epoch + st.cron_period ≠ params_epoch then
      Except.ok
        ({ st with
            executable_epoch_queue :=
              (st.insert_executable_epoch params_epoch).executable_epoch_queue },
          none)
    else
      match submission.load_most_submitted_checkpoint with
      | none => throw "most submitted checkpoint missing"
      | some most_submitted =>
        Except.ok
          ({ st with
              last_cron_executed_epoch := params_epoch
              cron_submissions := alistDelete st.cron_submissions params_epoch },
            some most_submitted.top_down_msgs)

/-- `Actor::execute_next_cron_epoch` from `src/gateway/src/lib.rs` (the
transaction body): if the queue exists and its smallest epoch does not
exceed `last_cron_executed_epoch + cron_period`, pop that single epoch,
advance the watermark to it, delete its submission and return its most
submitted checkpoint's messages for dispatch.  The source's `unreachable!`
panics (empty-but-present queue, missing submission) and the `unwrap()` of
the most submitted checkpoint are embedded as errors. -/
def Actor.execute_next_cron_epoch (st : State) :
    Except String (State × Option (List StorableMsg)) :=
  match st.executable_epoch_queue with
  | none => Except.ok (st, none)
  | some queue =>
    match queue with
    | [] => Except.error "epoch queue should not be empty"
    | epoch :: rest =>
      if epoch > st.last_cron_executed_epoch + st.cron_period then
        Except.ok (st, none)
      else
        let st :=
          { st with
            executable_epoch_queue := if rest = [] then none else some rest }
        match alistGet st.cron_submissions epoch with
        | none => Except.error "submission in epoch not found"
        | some submission =>
          match submission.load_most_submitted_checkpoint with
          | none => Except.error "most submitted checkpoint missing"
          | some most_submitted =>
            Except.ok
              ({ st with
                  last_cron_executed_epoch := epoch
                  cron_submissions := alistDelete st.cron_submissions epoch },
                some most_submitted.top_down_msgs)

/-- States reachable from a constructor call through the state-mutating
operations embedded in this file. -/
inductive Reachable : State → Prop where
  | constructor (params : ConstructorParams) : Reachable (State.new params)
  | commit_child_check {st st' : State} (cidOf : CheckData → Cid)
      (caller : Address) (curr_epoch : Int) (commit : Checkpoint) (fee : Nat) :
      Reachable st → Actor.commit_child_check cidOf st caller curr_epoch commit
        = Except.ok (st', fee) → Reachable st'
  | cron_submission {st st' : State} (digest : CronCheckpoint → HashOutput)
      (checkpoint : CronCheckpoint) (submitter : Address)
      (msgs : Option (List StorableMsg)) :
      Reachable st → Actor.handle_cron_submission digest st checkpoint submitter
        = Except.ok (st', msgs) → Reachable st'
  | next_cron_epoch {st st' : State} (msgs : Option (List StorableMsg)) :
      Reachable st → Actor.execute_next_cron_epoch st = Except.ok (st', msgs) →
      Reachable st'
  | bottomup {st st' : State} (msg : StorableMsg) :
      Reachable st → State.bottomup_state_transition st msg = Except.ok st' →
      Reachable st'

end HSCA

namespace HSCA

/-! Regression examples mirroring `test_derive_execution_status` in
`src/gateway/src/cron.rs`. -/

example :
    ({ CronSubmission.new with total_submissions := 10 }).derive_execution_status 35 5
      = .ThresholdNotReached := by decide
example :
    ({ CronSubmission.new with total_submissions := 4 }).derive_execution_status 4 2
      = .RoundAbort := by decide
example :
    ({ CronSubmission.new with total_submissions := 4 }).derive_execution_status 5 4
      = .ConsensusReached := by decide
example :
    ({ CronSubmission.new with total_submissions := 4 }).derive_execution_status 5 3
      = .ReachingConsensus := by decide

/-! Regression examples mirroring `test_is_bottomup` in `src/src/cross.rs`
(`/root/f01` is rendered here as the route `[0, 1]`, etc.). -/

example : is_bottomup ⟨[0, 1]⟩ ⟨[0, 1, 2]⟩ = false := by decide
example : is_bottomup ⟨[0, 1]⟩ ⟨[0]⟩ = true := by decide
example : is_bottomup ⟨[0, 1]⟩ ⟨[0, 2, 2]⟩ = true := by decide
example : is_bottomup ⟨[0, 1, 2]⟩ ⟨[0, 1, 2]⟩ = false := by decide
example : is_bottomup ⟨[0, 1, 2]⟩ ⟨[0, 1, 2, 3]⟩ = false := by decide

/-! ## Claim C1 — execution status derivation -/

/-- C1: For every cron submission state, with T the total validator weight,
threshold = T * 2 / 3 in integer arithmetic, S the total submitted weight
and M the count of the most voted hash, `derive_execution_status` returns
`ThresholdNotReached` if S ≤ threshold; otherwise `ConsensusReached` if
M > threshold; otherwise `RoundAbort` if threshold − M ≥ T − S; and
`ReachingConsensus` in every remaining case.  The right-hand side conditions
are stated over ℤ exactly as the claim reads them; the hypotheses say that
the `u16` threshold multiplication does not wrap and that no more
submissions than validators have been counted (true of every state the
actor reaches). -/
theorem c1_derive_execution_status (s : CronSubmission) (T M : Nat)
    (hT : 2 * T < 2 ^ 16) (hS : s.total_submissions ≤ T) :
    s.derive_execution_status T M =
      if (s.total_submissions : ℤ) ≤ (T : ℤ) * 2 / 3 then
        .ThresholdNotReached
      else if (M : ℤ) > (T : ℤ) * 2 / 3 then
        .ConsensusReached
      else if (T : ℤ) * 2 / 3 - (M : ℤ) ≥ (T : ℤ) - (s.total_submissions : ℤ) then
        .RoundAbort
      else
        .ReachingConsensus := by
  have hmod : T * 2 % 2 ^ 16 = T * 2 := Nat.mod_eq_of_lt (by omega)
  have hcast : ((T * 2 / 3 : ℕ) : ℤ) = (T : ℤ) * 2 / 3 := by
    rw [Int.ofNat_ediv]
    push_cast
    ring_nf
  simp only [CronSubmission.derive_execution_status, RATIO_NUMERATOR,
    RATIO_DENOMINATOR, hmod]
  split_ifs <;> first | rfl | omega

/-- Witness for C1 at the spec's own scenario (T = 5 equal-weight
validators, S = 4 submissions split 2/2): the round aborts. -/
theorem c1_witness :
    ({ CronSubmission.new with total_submissions := 4 }).derive_execution_status 5 2
      = VoteExecutionStatus.RoundAbort := by
  have h :=
    c1_derive_execution_status { CronSubmission.new with total_submissions := 4 } 5 2
      (by decide) (by decide)
  rw [h]
  decide

/-! ## Claim C2 — bottom-up classification at the current subnet -/

/-- C2: For every cross-message m and current subnet S, the classification
used when applying or committing m is bottom-up if and only if the lowest
common ancestor of S and m.to.subnet equals the lowest common ancestor of
m.from.subnet and m.to.subnet and the raw from-to direction is bottom-up
(m.from.subnet lies strictly below that common ancestor); in every other
case the classification is top-down.  The lowest common ancestor is the
longest shared route; "strictly below" is having a route strictly longer
than the ancestor's. -/
theorem c2_apply_type_bottomup (m : StorableMsg) (curr : SubnetID) :
    (m.apply_type curr = .BottomUp ↔
      commonRoute curr.route m.to_.subnet.route
          = commonRoute m.from_.subnet.route m.to_.subnet.route
        ∧ (commonRoute m.from_.subnet.route m.to_.subnet.route).length
            < m.from_.subnet.route.length)
    ∧ (m.apply_type curr ≠ .BottomUp → m.apply_type curr = .TopDown) := by
  have hbu : is_bottomup m.from_.subnet m.to_.subnet = true ↔
      (commonRoute m.from_.subnet.route m.to_.subnet.route).length
        < m.from_.subnet.route.length := by
    simp [is_bottomup, SubnetID.common_parent]
  have hcp : curr.common_parent m.to_.subnet = m.from_.subnet.common_parent m.to_.subnet
      ↔ commonRoute curr.route m.to_.subnet.route
          = commonRoute m.from_.subnet.route m.to_.subnet.route := by
    constructor
    · intro h
      simp only [SubnetID.common_parent, Option.some.injEq, Prod.mk.injEq,
        SubnetID.mk.injEq] at h
      exact h.2
    · intro h
      simp [SubnetID.common_parent, h]
  constructor
  · rw [StorableMsg.apply_type]
    split_ifs with hcond
    · simp only [true_iff]
      obtain ⟨h1, h2⟩ := hcond
      refine ⟨hcp.mp h1, hbu.mp ?_⟩
      by_contra hfalse
      simp [StorableMsg.hc_type, hfalse] at h2
    · simp only [false_iff, reduceCtorEq]
      intro ⟨h1, h2⟩
      exact hcond ⟨hcp.mpr h1, by simp [StorableMsg.hc_type, hbu.mpr h2]⟩
  · intro h
    rw [StorableMsg.apply_type] at h ⊢
    split_ifs at h ⊢ with hcond
    · exact absurd rfl h
    · rfl

/-! ## Claim C5 — cron checkpoint hashing -/

/-- The adjacent-pair nonce check succeeds exactly on chains of strictly
increasing nonces. -/
theorem checkNonceOrder_ok_iff (l : List StorableMsg) :
    checkNonceOrder l = Except.ok ()
      ↔ List.Chain' (fun a b => a.nonce < b.nonce) l := by
  induction l with
  | nil => simp [checkNonceOrder]
  | cons a rest ih =>
    cases rest with
    | nil => simp [checkNonceOrder]
    | cons b rest' =>
      rw [List.chain'_cons, ← ih, checkNonceOrder]
      rcases Nat.lt_trichotomy a.nonce b.nonce with h | h | h
      · have hc : compare a.nonce b.nonce = Ordering.lt := by
          simpa [Nat.compare_eq_lt]
        rw [hc]
        simp [h]
      · have hc : compare a.nonce b.nonce = Ordering.eq := by
          simpa [Nat.compare_eq_eq]
        rw [hc]
        simp [h]
      · have hc : compare a.nonce b.nonce = Ordering.gt := by
          simpa [Nat.compare_eq_gt]
        rw [hc]
        simp [Nat.lt_asymm h]

/-- C5: For every CronCheckpoint, hashing succeeds — and returns the
Blake2b-256 digest of the canonical serialization, abstracted as `digest` —
if and only if the nonces of `top_down_msgs` are strictly ascending; a
duplicate nonce or a pair out of ascending order makes hashing (and hence
submission) fail with an error. -/
theorem c5_cron_checkpoint_hash (digest : CronCheckpoint → HashOutput)
    (c : CronCheckpoint) :
    (CronCheckpoint.hash digest c = Except.ok (digest c)
      ↔ List.Pairwise (· < ·) (c.top_down_msgs.map StorableMsg.nonce))
    ∧ (¬ List.Pairwise (· < ·) (c.top_down_msgs.map StorableMsg.nonce) →
        ∃ e, CronCheckpoint.hash digest c = Except.error e) := by
  have hpair : List.Chain' (fun a b => a.nonce < b.nonce) c.top_down_msgs
      ↔ List.Pairwise (· < ·) (c.top_down_msgs.map StorableMsg.nonce) := by
    rw [← List.chain'_map (f := StorableMsg.nonce) (R := (· < ·))]
    exact List.chain'_iff_pairwise
  constructor
  · rw [← hpair, ← checkNonceOrder_ok_iff]
    cases h : checkNonceOrder c.top_down_msgs with
    | ok u =>
      cases u
      simp [CronCheckpoint.hash, h, Bind.bind, Except.bind]
    | error e =>
      simp [CronCheckpoint.hash, h, Bind.bind, Except.bind]
  · intro hnot
    rw [← hpair, ← checkNonceOrder_ok_iff] at hnot
    cases h : checkNonceOrder c.top_down_msgs with
    | ok u => cases u; exact absurd h hnot
    | error e => exact ⟨e, by simp [CronCheckpoint.hash, h, Bind.bind, Except.bind]⟩

end HSCA

namespace HSCA

/-! ## Claim C4 — window checkpoint epoch -/

/-- A binding found by `alistGet` is a member of the list. -/
theorem alistGet_mem {κ ν : Type} [DecidableEq κ] {l : List (κ × ν)} {k : κ}
    {v : ν} (h : alistGet l k = some v) : (k, v) ∈ l := by
  induction l with
  | nil => simp [alistGet] at h
  | cons p rest ih =>
    rw [alistGet] at h
    split_ifs at h with hk
    · cases h
      simp [← hk]
    · simp [ih h]

/-- The checkpoints map is keyed by the stored checkpoint's epoch
(`set_checkpoint` in `src/gateway/src/state.rs` uses `ch.epoch()` as the
key), so a well-formed map binds every epoch to a checkpoint carrying it. -/
def CheckpointsKeyedByEpoch (st : State) : Prop :=
  ∀ p ∈ st.checkpoints, (p.2 : Checkpoint).data.epoch = p.1

/-- Claim C4 as stated: for every non-negative epoch e and period p, the
current window checkpoint is retrieved or created at
`⌈(e+1)/p⌉·p = (e+1+p−1)/p·p`, the first multiple of p strictly greater
than e. -/
def windowCheckpointCeilClaim : Prop :=
  ∀ (st : State) (epoch : Int) (ch : Checkpoint),
    0 ≤ epoch → 0 < st.check_period → CheckpointsKeyedByEpoch st →
    st.get_window_checkpoint epoch = Except.ok ch →
    ch.data.epoch = (epoch + 1 + st.check_period - 1) / st.check_period * st.check_period

/-- A freshly constructed state (network `/0`, default periods): empty
checkpoints map, `check_period = 10`. -/
def c4State : State := State.new ⟨⟨[0]⟩, 0, 0, 10⟩

/-- Counterexample to C4: at epoch 10 with period 10 the code retrieves the
window checkpoint at `checkpoint_epoch 10 10 = 10` (the gateway test
`checkpoint_commit` pins exactly this value), while the claim's formula
gives 20. -/
theorem c4_counterexample : ¬ windowCheckpointCeilClaim := by
  intro hclaim
  have h :=
    hclaim c4State 10 (Checkpoint.new c4State.network_name 10) (by decide)
      (by decide) (by intro p hp; simp [c4State, State.new] at hp) (by decide)
  norm_num [c4State, State.new, DEFAULT_CHECKPOINT_PERIOD, Checkpoint.new,
    CheckData.new] at h

/-- C4 amended: for every non-negative epoch e, the current window
checkpoint is retrieved or created at `checkpoint_epoch e p = (e/p)·p`, the
largest multiple of the period p not exceeding e (not the first multiple
strictly greater than e). -/
theorem c4_window_checkpoint_floor (st : State) (epoch : Int) (ch : Checkpoint)
    (he : 0 ≤ epoch) (hp : 0 < st.check_period)
    (hwf : CheckpointsKeyedByEpoch st)
    (h : st.get_window_checkpoint epoch = Except.ok ch) :
    ch.data.epoch = checkpoint_epoch epoch st.check_period
    ∧ ch.data.epoch ≤ epoch
    ∧ epoch < ch.data.epoch + st.check_period
    ∧ st.check_period ∣ ch.data.epoch := by
  have hepoch : ch.data.epoch = checkpoint_epoch epoch st.check_period := by
    rw [State.get_window_checkpoint, if_neg (by omega : ¬ epoch < 0)] at h
    simp only [] at h
    cases hget : alistGet st.checkpoints (checkpoint_epoch epoch st.check_period) with
    | some ch' =>
      rw [hget] at h
      cases h
      exact hwf _ (alistGet_mem hget)
    | none =>
      rw [hget] at h
      cases h
      rfl
  have htd : Int.tdiv epoch st.check_period = epoch / st.check_period :=
    Int.tdiv_eq_ediv he (le_of_lt hp)
  refine ⟨hepoch, ?_, ?_, ?_⟩ <;> rw [hepoch, checkpoint_epoch, htd]
  · exact Int.ediv_mul_le epoch (by omega)
  · nlinarith [Int.lt_ediv_add_one_mul_self epoch hp]
  · exact dvd_mul_left st.check_period (epoch / st.check_period)

/-- Witness for the amended C4 at epoch 10, period 10: the window
checkpoint is created at epoch 10 itself. -/
theorem c4_witness :
    (Checkpoint.new c4State.network_name 10).data.epoch
        = checkpoint_epoch 10 c4State.check_period
    ∧ (Checkpoint.new c4State.network_name 10).data.epoch ≤ 10
    ∧ (10 : Int) < (Checkpoint.new c4State.network_name 10).data.epoch
        + c4State.check_period
    ∧ c4State.check_period ∣ (Checkpoint.new c4State.network_name 10).data.epoch :=
  c4_window_checkpoint_floor c4State 10 (Checkpoint.new c4State.network_name 10)
    (by decide) (by decide) (by intro p hp; simp [c4State, State.new] at hp)
    (by decide)


/-! ## Claim C7 — committing a child checkpoint -/

/-- Claim C7 as stated: a CommitChildCheckpoint call on a child subnet that
already has a previous committed checkpoint P succeeds only if
`commit.epoch > P.epoch` and `commit.prev_check = CID(P)`. -/
def commitStrictEpochClaim : Prop :=
  ∀ (cidOf : CheckData → Cid) (st : State) (caller : Address) (curr_epoch : Int)
    (commit : Checkpoint) (sub : Subnet) (prev : Checkpoint),
    alistGet st.subnets (st.network_name.new_from_parent caller) = some sub →
    sub.prev_checkpoint = some prev →
    (Actor.commit_child_check cidOf st caller curr_epoch commit).isOk = true →
    prev.data.epoch < commit.data.epoch ∧ commit.data.prev_check = cidOf prev.data

/-- A concrete checkpoint CID function for the counterexample. -/
def cidOf0 : CheckData → Cid := fun _ => 1

/-- The child subnet `/0/7` used in the C7 counterexample. -/
def c7Shid : SubnetID := ⟨[0, 7]⟩

/-- The previously committed child checkpoint, at epoch 10. -/
def c7Prev : Checkpoint := Checkpoint.new c7Shid 10

/-- The registered, active child subnet holding `c7Prev`. -/
def c7Sub : Subnet :=
  { id := c7Shid
    stake := 0
    top_down_msgs := []
    circ_supply := 0
    status := Status.Active
    nonce := 0
    prev_checkpoint := some c7Prev }

/-- A fresh commit for the same epoch 10, correctly linked to `c7Prev`. -/
def c7Commit : Checkpoint :=
  { data :=
    { source := c7Shid
      tip_set := []
      epoch := 10
      prev_check := 1
      children := []
      cross_msgs := none }
    sig := [] }

/-- Gateway state for the C7 counterexample: network `/0` with the child
subnet registered. -/
def c7State : State :=
  { State.new ⟨⟨[0]⟩, 0, 0, 10⟩ with subnets := [(c7Shid, c7Sub)] }

/-- Counterexample to C7: committing a checkpoint whose epoch EQUALS the
previous checkpoint's epoch succeeds (the code only rejects
`prev.epoch > commit.epoch`), refuting the claimed strict inequality. -/
theorem c7_counterexample : ¬ commitStrictEpochClaim := by
  intro hclaim
  have h :=
    hclaim cidOf0 c7State 7 0 c7Commit c7Sub c7Prev (by decide) (by decide)
      (by decide)
  exact absurd h.1 (by decide)

/-- C7 amended: with a previous committed checkpoint P, the call succeeds
only if `commit.epoch ≥ P.epoch` (equality is accepted) and
`commit.prev_check = CID(P)`; when either condition is violated the call
fails (and, the call being a transaction body, every mutation is rolled
back — the embedding returns an error without a state). -/
theorem c7_commit_child_check (cidOf : CheckData → Cid) (st : State)
    (caller : Address) (curr_epoch : Int) (commit : Checkpoint) (sub : Subnet)
    (prev : Checkpoint)
    (hsub : alistGet st.subnets (st.network_name.new_from_parent caller) = some sub)
    (hprev : sub.prev_checkpoint = some prev) :
    ((Actor.commit_child_check cidOf st caller curr_epoch commit).isOk = true →
      prev.data.epoch ≤ commit.data.epoch
        ∧ commit.data.prev_check = cidOf prev.data)
    ∧ ((prev.data.epoch > commit.data.epoch
          ∨ commit.data.prev_check ≠ cidOf prev.data) →
        ∃ e, Actor.commit_child_check cidOf st caller curr_epoch commit
          = Except.error e) := by
  rw [Actor.commit_child_check]
  by_cases hauth : commit.data.source.subnet_actor ≠ caller
  · rw [if_pos hauth]
    exact ⟨fun h => absurd h (by simp [Except.isOk, Except.toBool]),
      fun _ => ⟨_, rfl⟩⟩
  · rw [if_neg hauth]
    simp only [hsub]
    by_cases hstat : sub.status ≠ Status.Active
    · rw [if_pos hstat]
      exact ⟨fun h => absurd h (by simp [Except.isOk, Except.toBool]),
        fun _ => ⟨_, rfl⟩⟩
    · rw [if_neg hstat]
      cases hwin : st.get_window_checkpoint curr_epoch with
      | error e =>
        exact ⟨fun h => absurd h (by simp [Except.isOk, Except.toBool]),
          fun _ => ⟨e, by simp⟩⟩
      | ok ch =>
        simp only [hprev]
        by_cases hpast : prev.data.epoch > commit.data.epoch
        · rw [if_pos hpast]
          exact ⟨fun h => absurd h (by simp [Except.isOk, Except.toBool]),
            fun _ => ⟨_, rfl⟩⟩
        · rw [if_neg hpast]
          by_cases hcid : commit.data.prev_check ≠ cidOf prev.data
          · rw [if_pos hcid]
            exact ⟨fun h => absurd h (by simp [Except.isOk, Except.toBool]),
              fun _ => ⟨_, rfl⟩⟩
          · rw [if_neg hcid]
            refine ⟨fun _ => ⟨by omega, by tauto⟩, fun hbad => ?_⟩
            rcases hbad with hb | hb
            · exact absurd hb hpast
            · exact absurd hb hcid

/-- Witness for the amended C7 at the concrete equal-epoch scenario. -/
theorem c7_witness :
    ((Actor.commit_child_check cidOf0 c7State 7 0 c7Commit).isOk = true →
      c7Prev.data.epoch ≤ c7Commit.data.epoch
        ∧ c7Commit.data.prev_check = cidOf0 c7Prev.data)
    ∧ ((c7Prev.data.epoch > c7Commit.data.epoch
          ∨ c7Commit.data.prev_check ≠ cidOf0 c7Prev.data) →
        ∃ e, Actor.commit_child_check cidOf0 c7State 7 0 c7Commit
          = Except.error e) :=
  c7_commit_child_check cidOf0 c7State 7 0 c7Commit c7Sub c7Prev (by decide)
    (by decide)



/-! ## Claim C8 — bottom-up nonce state transition -/

/-- Claim C8 as stated: applying a bottom-up message succeeds only if
`applied_bottomup_nonce + 1 == m.nonce`, with the single initial special
case `applied == u64::MAX ∧ m.nonce == 0`. -/
def bottomupStrictNonceClaim : Prop :=
  ∀ (st : State) (msg : StorableMsg),
    (State.bottomup_state_transition st msg).isOk = true →
    (st.applied_bottomup_nonce + 1 = msg.nonce
      ∨ (st.applied_bottomup_nonce = U64MAX ∧ msg.nonce = 0))

/-- A state whose applied bottom-up nonce is 0 (as after applying the first
bottom-up message on a fresh state). -/
def c8State : State :=
  { State.new ⟨⟨[0]⟩, 0, 0, 10⟩ with applied_bottomup_nonce := 0 }

/-- A bottom-up message carrying nonce 0 again. -/
def c8Msg : StorableMsg :=
  { from_ := ⟨⟨[0, 1]⟩, 1⟩
    to_ := ⟨⟨[0]⟩, 2⟩
    method := 0
    params := []
    value := 0
    nonce := 0 }

/-- Counterexample to C8: with `applied_bottomup_nonce = 0` a message with
nonce 0 — the nonce already applied — is accepted (the source deliberately
accepts repeats: several messages share their meta's nonce), although the
claim allows only `applied + 1 = nonce` or the MAX→0 initialisation. -/
theorem c8_counterexample : ¬ bottomupStrictNonceClaim := by
  intro hclaim
  have h := hclaim c8State c8Msg (by decide)
  rcases h with h | h
  · exact absurd h (by decide)
  · exact absurd h.1 (by decide)

/-- C8 amended: applying a bottom-up message succeeds exactly when its nonce
is the currently applied nonce (accepted again, watermark unchanged) or the
wrapping successor `(applied + 1) mod 2^64` (watermark advances; the
`applied == u64::MAX ∧ nonce == 0` initialisation is an instance of this);
any other nonce is an error, and an error rolls the transaction back. -/
theorem c8_bottomup_state_transition (st : State) (msg : StorableMsg)
    (ha : st.applied_bottomup_nonce < 2 ^ 64) (hn : msg.nonce < 2 ^ 64) :
    (State.bottomup_state_transition st msg
        = Except.ok { st with applied_bottomup_nonce := msg.nonce }
      ↔ (msg.nonce = st.applied_bottomup_nonce
          ∨ msg.nonce = (st.applied_bottomup_nonce + 1) % 2 ^ 64))
    ∧ ((msg.nonce ≠ st.applied_bottomup_nonce
          ∧ msg.nonce ≠ (st.applied_bottomup_nonce + 1) % 2 ^ 64) →
        State.bottomup_state_transition st msg
          = Except.error
              "the bottom-up message being applied doesn't hold the subsequent nonce") := by
  rw [State.bottomup_state_transition]
  by_cases hinit : st.applied_bottomup_nonce = U64MAX ∧ msg.nonce = 0
  · rw [if_pos hinit]
    have hsucc : (st.applied_bottomup_nonce + 1) % 2 ^ 64 = 0 := by
      rw [hinit.1, U64MAX]
      omega
    rw [if_neg (by omega : ¬ (0 : Nat) ≠ msg.nonce), hinit.2]
    exact ⟨iff_of_true rfl (Or.inr hsucc.symm), fun hbad => absurd hsucc.symm hbad.2⟩
  · rw [if_neg hinit]
    by_cases hnext : (st.applied_bottomup_nonce + 1) % 2 ^ 64 = msg.nonce
    · rw [if_pos hnext]
      rw [if_neg (by omega : ¬ (st.applied_bottomup_nonce + 1) % 2 ^ 64 ≠ msg.nonce),
        hnext]
      exact ⟨iff_of_true rfl (Or.inr rfl), fun hbad => absurd rfl hbad.2⟩
    · rw [if_neg hnext]
      by_cases hsame : st.applied_bottomup_nonce = msg.nonce
      · rw [if_neg (by omega : ¬ st.applied_bottomup_nonce ≠ msg.nonce), hsame]
        exact ⟨iff_of_true rfl (Or.inl rfl), fun hbad => absurd rfl hbad.1⟩
      · rw [if_pos (by omega : st.applied_bottomup_nonce ≠ msg.nonce)]
        constructor
        · constructor
          · intro hc
            cases hc
          · intro hc
            rcases hc with hc | hc
            · exact absurd hc.symm hsame
            · exact absurd hc.symm hnext
        · intro _
          rfl

/-- Witness for the amended C8 at the repeated-nonce scenario: nonce 0 with
watermark 0 is accepted and leaves the state unchanged apart from the
(idempotent) watermark write. -/
theorem c8_witness :
    (State.bottomup_state_transition c8State c8Msg
        = Except.ok { c8State with applied_bottomup_nonce := c8Msg.nonce }
      ↔ (c8Msg.nonce = c8State.applied_bottomup_nonce
          ∨ c8Msg.nonce = (c8State.applied_bottomup_nonce + 1) % 2 ^ 64))
    ∧ ((c8Msg.nonce ≠ c8State.applied_bottomup_nonce
          ∧ c8Msg.nonce ≠ (c8State.applied_bottomup_nonce + 1) % 2 ^ 64) →
        State.bottomup_state_transition c8State c8Msg
          = Except.error
              "the bottom-up message being applied doesn't hold the subsequent nonce") :=
  c8_bottomup_state_transition c8State c8Msg (by decide) (by decide)



/-! ## Claim C6 — vote accounting on submission -/

/-- Looking up a freshly set binding. -/
theorem alistGet_set_self {κ ν : Type} [DecidableEq κ] (l : List (κ × ν))
    (k : κ) (v : ν) : alistGet (alistSet l k v) k = some v := by
  induction l with
  | nil => simp [alistGet, alistSet]
  | cons p rest ih =>
    rcases p with ⟨k', v'⟩
    rw [alistSet]
    split_ifs with h
    · simp [alistGet]
    · rw [alistGet, if_neg h]
      exact ih

/-- Setting one key leaves every other key's binding unchanged. -/
theorem alistGet_set_ne {κ ν : Type} [DecidableEq κ] (l : List (κ × ν))
    {k₁ k₂ : κ} (v : ν) (hk : k₁ ≠ k₂) :
    alistGet (alistSet l k₁ v) k₂ = alistGet l k₂ := by
  induction l with
  | nil => simp [alistGet, alistSet, hk]
  | cons p rest ih =>
    rcases p with ⟨k', v'⟩
    rw [alistSet]
    split_ifs with h
    · rw [alistGet, if_neg (h ▸ hk), alistGet, if_neg (h ▸ hk)]
    · rw [alistGet, alistGet]
      split_ifs with h2
      · rfl
      · exact ih

/-- The accumulated count of a hash (`submission_counts`, absent = 0). -/
def countOf (s : CronSubmission) (h : HashOutput) : Nat :=
  (alistGet s.submission_counts h).getD 0

/-- The count of the current most voted hash (0 when none is set). -/
def mostVotedCount (s : CronSubmission) : Nat :=
  match s.most_voted_hash with
  | none => 0
  | some m => countOf s m

/-- Claim C6 as stated (its two accounting conjuncts): a submission accepted
from a validator with stake weight w increases `counts[hash]` by w and the
total submitted weight by w.  (The claim's third conjunct, the most-voted
replacement rule, is proved in the amended theorem; refuting these two
conjuncts refutes the stated conjunction.) -/
def cronWeightTallyClaim : Prop :=
  ∀ (digest : CronCheckpoint → HashOutput) (v : Validator)
    (s s' : CronSubmission) (checkpoint : CronCheckpoint) (c : Nat)
    (h : HashOutput),
    checkpoint.hash digest = Except.ok h →
    CronSubmission.submit digest s v.addr checkpoint = Except.ok (s', c) →
    countOf s' h = countOf s h + v.weight
      ∧ s'.total_submissions = s.total_submissions + v.weight

/-- A concrete digest for the C6/C3 scenarios. -/
def digest0 : CronCheckpoint → HashOutput := fun _ => [0]

/-- A validator with stake weight 2. -/
def c6Validator : Validator := ⟨1, 2⟩

/-- An empty cron checkpoint for epoch 0. -/
def c6Checkpoint : CronCheckpoint := ⟨0, []⟩

/-- The submission state after `c6Validator` submits `c6Checkpoint` into a
fresh `CronSubmission`. -/
def c6After : CronSubmission :=
  { total_submissions := 1
    most_voted_hash := some [0]
    submitters := [(1, ())]
    submission_counts := [([0], 1)]
    submissions := [([0], c6Checkpoint)] }

/-- Counterexample to C6: a validator with stake weight 2 submits, but the
pinned `cron.rs` tally counts votes, not stake: the count and the total rise
by 1, not by the weight 2. -/
theorem c6_counterexample : ¬ cronWeightTallyClaim := by
  intro hclaim
  have h :=
    hclaim digest0 c6Validator CronSubmission.new c6After c6Checkpoint 1 [0]
      (by decide) (by decide)
  exact absurd h.2 (by decide)

/-- `update_submitters` only adds the submitter and bumps the counter. -/
theorem update_submitters_ok (s : CronSubmission) (a : Address)
    (s' : CronSubmission) (t : Nat)
    (h : s.update_submitters a = Except.ok (s', t)) :
    s'.total_submissions = s.total_submissions + 1
    ∧ s'.submission_counts = s.submission_counts
    ∧ s'.most_voted_hash = s.most_voted_hash
    ∧ s'.submissions = s.submissions := by
  rw [CronSubmission.update_submitters] at h
  cases hget : alistGet s.submitters a with
  | some u =>
    rw [hget] at h
    cases h
  | none =>
    rw [hget] at h
    cases h
    exact ⟨rfl, rfl, rfl, rfl⟩

/-- `insert_checkpoint` returns the checkpoint's hash and touches only the
`submissions` map. -/
theorem insert_checkpoint_ok (digest : CronCheckpoint → HashOutput)
    (s : CronSubmission) (cp : CronCheckpoint) (s' : CronSubmission)
    (h : HashOutput)
    (hins : CronSubmission.insert_checkpoint digest s cp = Except.ok (s', h)) :
    cp.hash digest = Except.ok h
    ∧ s'.total_submissions = s.total_submissions
    ∧ s'.submission_counts = s.submission_counts
    ∧ s'.most_voted_hash = s.most_voted_hash := by
  rw [CronSubmission.insert_checkpoint] at hins
  cases hh : cp.hash digest with
  | error e =>
    rw [hh] at hins
    simp only [Bind.bind, Except.bind] at hins
    cases hins
  | ok hsh =>
    rw [hh] at hins
    simp only [Bind.bind, Except.bind] at hins
    cases hget : alistGet s.submissions hsh with
    | some u =>
      rw [hget] at hins
      cases hins
      exact ⟨rfl, rfl, rfl, rfl⟩
    | none =>
      rw [hget] at hins
      cases hins
      exact ⟨rfl, rfl, rfl, rfl⟩

/-- `update_submission_count` bumps the hash's count by exactly one, leaves
every other count and the rest of the state alone, and replaces
`most_voted_hash` by the hash exactly when the bumped count strictly exceeds
the current most voted count. -/
theorem update_submission_count_ok (s : CronSubmission) (hash : HashOutput)
    (s' : CronSubmission) (c : Nat)
    (hupd : s.update_submission_count hash = Except.ok (s', c)) :
    s'.total_submissions = s.total_submissions
    ∧ s'.submissions = s.submissions
    ∧ countOf s' hash = countOf s hash + 1
    ∧ (∀ h', h' ≠ hash → countOf s' h' = countOf s h')
    ∧ s'.most_voted_hash =
        (if countOf s hash + 1 > mostVotedCount s then some hash
          else s.most_voted_hash) := by
  have hnew : (match alistGet s.submission_counts hash with
      | some v => v + 1
      | none => 1) = countOf s hash + 1 := by
    rw [countOf]
    cases alistGet s.submission_counts hash <;> simp
  have hself : ∀ n : Nat,
      (alistGet (alistSet s.submission_counts hash n) hash).getD 0 = n := by
    intro n
    rw [alistGet_set_self]
    rfl
  have hother : ∀ (n : Nat) (h' : HashOutput), h' ≠ hash →
      (alistGet (alistSet s.submission_counts hash n) h').getD 0 = countOf s h' := by
    intro n h' hne
    rw [alistGet_set_ne _ _ (Ne.symm hne), countOf]
  rw [CronSubmission.update_submission_count] at hupd
  simp only [hnew] at hupd
  cases hmv : s.most_voted_hash with
  | none =>
    simp only [hmv] at hupd
    cases hupd
    have hcond : countOf s hash + 1 > mostVotedCount s := by
      simp [mostVotedCount, hmv]
    refine ⟨rfl, rfl, hself _, fun h' hne => hother _ h' hne, ?_⟩
    rw [if_pos hcond]
  | some m =>
    simp only [hmv] at hupd
    by_cases hmh : m = hash
    · rw [if_pos hmh] at hupd
      cases hupd
      have hcond : countOf s hash + 1 > mostVotedCount s := by
        simp [mostVotedCount, hmv, hmh]
      refine ⟨rfl, rfl, hself _, fun h' hne => hother _ h' hne, ?_⟩
      rw [if_pos hcond, hmh]
    · rw [if_neg hmh] at hupd
      rw [alistGet_set_ne _ _ (fun hc => hmh hc.symm)] at hupd
      cases hgm : alistGet s.submission_counts m with
      | none =>
        rw [hgm] at hupd
        cases hupd
      | some mc =>
        simp only [hgm] at hupd
        have hmc : mostVotedCount s = mc := by
          simp [mostVotedCount, hmv, countOf, hgm]
        by_cases hgt : countOf s hash + 1 > mc
        · rw [if_pos hgt] at hupd
          cases hupd
          refine ⟨rfl, rfl, hself _, fun h' hne => hother _ h' hne, ?_⟩
          rw [if_pos (by omega)]
        · rw [if_neg hgt] at hupd
          cases hupd
          refine ⟨rfl, rfl, hself _, fun h' hne => hother _ h' hne, ?_⟩
          rw [if_neg (by omega)]

/-- C6 amended: accepting a submission raises `counts[hash]` by exactly 1
and `total_submissions` by exactly 1 — one unit per validator, independent
of its stake weight w (the pinned `cron.rs` tally is count-based) — and
`most_voted_hash` becomes the submitted hash exactly when its new count
strictly exceeds the count of the current most voted hash. -/
theorem c6_submit_counts (digest : CronCheckpoint → HashOutput)
    (s : CronSubmission) (submitter : Address) (checkpoint : CronCheckpoint)
    (s' : CronSubmission) (c : Nat) (h : HashOutput)
    (hh : checkpoint.hash digest = Except.ok h)
    (hsubmit : CronSubmission.submit digest s submitter checkpoint
      = Except.ok (s', c)) :
    s'.total_submissions = s.total_submissions + 1
    ∧ countOf s' h = countOf s h + 1
    ∧ (∀ h', h' ≠ h → countOf s' h' = countOf s h')
    ∧ s'.most_voted_hash =
        (if countOf s h + 1 > mostVotedCount s then some h
          else s.most_voted_hash) := by
  rw [CronSubmission.submit] at hsubmit
  cases h1 : s.update_submitters submitter with
  | error e =>
    rw [h1] at hsubmit
    simp only [Bind.bind, Except.bind] at hsubmit
    cases hsubmit
  | ok p1 =>
    rcases p1 with ⟨s1, t1⟩
    rw [h1] at hsubmit
    simp only [Bind.bind, Except.bind] at hsubmit
    cases h2 : CronSubmission.insert_checkpoint digest s1 checkpoint with
    | error e =>
      rw [h2] at hsubmit
      cases hsubmit
    | ok p2 =>
      rcases p2 with ⟨s2, hsh⟩
      rw [h2] at hsubmit
      obtain ⟨e1a, e1b, e1c, e1d⟩ := update_submitters_ok s submitter s1 t1 h1
      obtain ⟨e2a, e2b, e2c, e2d⟩ :=
        insert_checkpoint_ok digest s1 checkpoint s2 hsh h2
      have hhs : hsh = h := by
        rw [hh] at e2a
        cases e2a
        rfl
      obtain ⟨e3a, e3b, e3c, e3d, e3e⟩ :=
        update_submission_count_ok s2 hsh s' c hsubmit
      have hc2 : ∀ x, countOf s2 x = countOf s x := by
        intro x
        rw [countOf, countOf, e2c, e1b]
      have hmv2 : mostVotedCount s2 = mostVotedCount s := by
        rw [mostVotedCount, mostVotedCount, e2d, e1c]
        cases s.most_voted_hash with
        | none => rfl
        | some m => simp only [hc2]
      refine ⟨?_, ?_, ?_, ?_⟩
      · rw [e3a, e2b, e1a]
      · rw [hhs] at e3c
        rw [e3c, hc2]
      · intro h' hne
        rw [hhs] at e3d
        rw [e3d h' hne, hc2]
      · rw [hhs] at e3e
        rw [e3e, hc2, hmv2, e2d, e1c]

/-- Witness for the amended C6 at the weight-2 validator scenario: both the
count and the total rise by exactly one. -/
theorem c6_witness :
    c6After.total_submissions = CronSubmission.new.total_submissions + 1
    ∧ countOf c6After [0] = countOf CronSubmission.new [0] + 1
    ∧ (∀ h', h' ≠ [0] → countOf c6After h' = countOf CronSubmission.new h')
    ∧ c6After.most_voted_hash =
        (if countOf CronSubmission.new [0] + 1 > mostVotedCount CronSubmission.new
          then some [0] else CronSubmission.new.most_voted_hash) :=
  c6_submit_counts digest0 CronSubmission.new c6Validator.addr c6Checkpoint
    c6After 1 [0] (by decide) (by decide)



/-! ## Claim C3 — ordered execution on consensus -/

/-- One validator of weight 1, address 5; genesis 0, cron period 10,
watermark 0, no submissions yet. -/
def c3State : State :=
  { State.new ⟨⟨[0]⟩, 0, 0, 10⟩ with validators := ⟨1, [(5, ⟨5, 1⟩)]⟩ }

/-- The single-validator checkpoint for epoch 20 = genesis + 2·cron_period:
consensus is reached at once (one validator), but epoch 10 has not executed,
so the deferred branch runs. -/
def c3Checkpoint : CronCheckpoint := ⟨20, [c8Msg]⟩

/-- C3, shown against the code at the failing input: the single validator's
submission for epoch 20 reaches ConsensusReached while
`last_cron_executed_epoch + cron_period = 10 ≠ 20`, so the deferred branch
runs.  The claim (and the source's own comment, "just store the submission
and skip execution") requires the submission to be persisted along with the
queue insertion — but the source's early `return Ok(None)` skips the
trailing `st.cron_submissions = TCid::from(hamt.flush()?)`, so the
persistent submissions map comes out unchanged: epoch 20 is queued with no
submission stored for it, and the later unsticking trigger would hit
`unreachable!("Submission in epoch not found, report bug")`. -/
theorem c3_deferred_submission_dropped :
    Actor.handle_cron_submission digest0 c3State c3Checkpoint 5
      = Except.ok
          ({ c3State with executable_epoch_queue := some [20] }, none)
    ∧ alistGet
        ({ c3State with executable_epoch_queue := some [20] } : State).cron_submissions
        c3Checkpoint.epoch = none :=
  ⟨by decide, by decide⟩

/-! ## Claim C9 — unsticking the executable epoch queue -/

/-- Claim C9 as stated: one unsticking trigger pops and executes every
queued epoch in ascending order while the smallest queued element equals
`last_cron_executed_epoch + cron_period`; so after the trigger returns, the
smallest remaining queued epoch can no longer equal watermark + period. -/
def unstickDrainClaim : Prop :=
  ∀ (st st' : State) (msgs : Option (List StorableMsg)),
    Actor.execute_next_cron_epoch st = Except.ok (st', msgs) →
    ∀ (e : Int) (q : List Int),
      st'.executable_epoch_queue = some (e :: q) →
      e ≠ st'.last_cron_executed_epoch + st'.cron_period

/-- A consensus-ready submission whose most voted checkpoint is the empty
checkpoint of epoch `e`. -/
def c9Sub (e : Int) : CronSubmission :=
  { total_submissions := 0
    most_voted_hash := some [0]
    submitters := []
    submission_counts := []
    submissions := [([0], ⟨e, []⟩)] }

/-- Two deferred epochs, 10 and 20, both consensus-ready; watermark 0,
period 10. -/
def c9State : State :=
  { State.new ⟨⟨[0]⟩, 0, 0, 10⟩ with
    executable_epoch_queue := some [10, 20]
    cron_submissions := [(10, c9Sub 10), (20, c9Sub 20)] }

/-- The state after one unsticking trigger on `c9State`: only epoch 10 was
popped and executed; epoch 20 — now exactly watermark + period — is still
queued. -/
def c9After : State :=
  { c9State with
    executable_epoch_queue := some [20]
    last_cron_executed_epoch := 10
    cron_submissions := [(20, c9Sub 20)] }

/-- Counterexample to C9: a single trigger pops at most ONE epoch.  From
queue {10, 20} with watermark 0 and period 10 it executes epoch 10 and
returns, leaving epoch 20 = new watermark + period at the head of the
queue; draining needs repeated triggers. -/
theorem c9_counterexample : ¬ unstickDrainClaim := by
  intro hclaim
  have h := hclaim c9State c9After (some []) (by decide) 20 [] (by decide)
  exact h (by decide)

/-- C9 amended: one unsticking trigger pops at most the single smallest
queued epoch: if that epoch does not exceed `last_cron_executed_epoch +
cron_period` (under the queue invariants this means it equals it), the
trigger removes it from the queue, advances the watermark to it, deletes
its submission and dispatches that epoch's messages; if it exceeds the
bound, nothing changes.  Later queued epochs wait for further triggers. -/
theorem c9_execute_next_cron_epoch (st : State) (epoch : Int)
    (rest : List Int) (submission : CronSubmission) (mcp : CronCheckpoint)
    (hq : st.executable_epoch_queue = some (epoch :: rest))
    (hsub : alistGet st.cron_submissions epoch = some submission)
    (hmost : submission.load_most_submitted_checkpoint = some mcp) :
    (epoch ≤ st.last_cron_executed_epoch + st.cron_period →
      Actor.execute_next_cron_epoch st =
        Except.ok
          ({ st with
              executable_epoch_queue := if rest = [] then none else some rest
              last_cron_executed_epoch := epoch
              cron_submissions := alistDelete st.cron_submissions epoch },
            some mcp.top_down_msgs))
    ∧ (st.last_cron_executed_epoch + st.cron_period < epoch →
        Actor.execute_next_cron_epoch st = Except.ok (st, none)) := by
  rw [Actor.execute_next_cron_epoch]
  simp only [hq]
  constructor
  · intro hle
    rw [if_neg (by omega)]
    simp only [hsub, hmost]
  · intro hgt
    rw [if_pos (by omega)]

/-- Witness for the amended C9 on the two-epoch queue: the trigger pops
epoch 10 (which is ≤ watermark + period) and leaves epoch 20 queued. -/
theorem c9_witness :
    ((10 : Int) ≤ c9State.last_cron_executed_epoch + c9State.cron_period →
      Actor.execute_next_cron_epoch c9State =
        Except.ok
          ({ c9State with
              executable_epoch_queue :=
                if ([20] : List Int) = [] then none else some [20]
              last_cron_executed_epoch := 10
              cron_submissions := alistDelete c9State.cron_submissions 10 },
            some ((⟨10, []⟩ : CronCheckpoint).top_down_msgs)))
    ∧ (c9State.last_cron_executed_epoch + c9State.cron_period < 10 →
        Actor.execute_next_cron_epoch c9State = Except.ok (c9State, none)) :=
  c9_execute_next_cron_epoch c9State 10 [20] (c9Sub 10) ⟨10, []⟩ (by decide)
    (by decide) (by decide)

/-! ## Claim C10 — the checkpoint period is clamped at construction -/

/-- `commit_child_rest` never changes `check_period`. -/
theorem commit_child_rest_check_period (cidOf : CheckData → Cid) (st : State)
    (sub : Subnet) (ch commit : Checkpoint) (st' : State) (fee : Nat)
    (h : Actor.commit_child_rest cidOf st sub ch commit = Except.ok (st', fee)) :
    st'.check_period = st.check_period := by
  rw [Actor.commit_child_rest] at h
  simp only [] at h
  cases hx : commit.data.cross_msgs with
  | some b =>
    simp only [hx] at h
    by_cases hcid : b.msgs_cid ≠ defaultCid
    · rw [if_pos hcid] at h
      cases hr2 : sub.release_supply b.value with
      | error e2 =>
        simp only [hr2] at h
        cases h
      | ok sub2 =>
        simp only [hr2] at h
        cases ha : ch.add_child_check cidOf commit with
        | error e3 =>
          simp only [ha] at h
          cases h
        | ok ch2 =>
          simp only [ha] at h
          cases h
          rfl
    · rw [if_neg hcid] at h
      cases hr2 : sub.release_supply b.value with
      | error e2 =>
        simp only [hr2] at h
        cases h
      | ok sub2 =>
        simp only [hr2] at h
        cases ha : ch.add_child_check cidOf commit with
        | error e3 =>
          simp only [ha] at h
          cases h
        | ok ch2 =>
          simp only [ha] at h
          cases h
          rfl
  | none =>
    simp only [hx] at h
    cases ha : ch.add_child_check cidOf commit with
    | error e3 =>
      simp only [ha] at h
      cases h
    | ok ch2 =>
      simp only [ha] at h
      cases h
      rfl

/-- `commit_child_check` never changes `check_period`. -/
theorem commit_child_check_check_period (cidOf : CheckData → Cid) (st : State)
    (caller : Address) (curr_epoch : Int) (commit : Checkpoint) (st' : State)
    (fee : Nat)
    (h : Actor.commit_child_check cidOf st caller curr_epoch commit
      = Except.ok (st', fee)) :
    st'.check_period = st.check_period := by
  rw [Actor.commit_child_check] at h
  split_ifs at h with hauth
  cases hg : alistGet st.subnets (st.network_name.new_from_parent caller) with
  | none =>
    simp only [hg] at h
    cases h
  | some sub =>
    simp only [hg] at h
    split_ifs at h with hstat
    cases hw : st.get_window_checkpoint curr_epoch with
    | error e =>
      simp only [hw] at h
      cases h
    | ok ch =>
      simp only [hw] at h
      cases hp : sub.prev_checkpoint with
      | some prev =>
        simp only [hp] at h
        split_ifs at h with h1 h2
        exact commit_child_rest_check_period cidOf st sub ch commit st' fee h
      | none =>
        simp only [hp] at h
        exact commit_child_rest_check_period cidOf st sub ch commit st' fee h

/-- `handle_cron_submission` never changes `check_period`. -/
theorem handle_cron_submission_check_period (digest : CronCheckpoint → HashOutput)
    (st : State) (checkpoint : CronCheckpoint) (submitter : Address)
    (st' : State) (msgs : Option (List StorableMsg))
    (h : Actor.handle_cron_submission digest st checkpoint submitter
      = Except.ok (st', msgs)) :
    st'.check_period = st.check_period := by
  rw [Actor.handle_cron_submission] at h
  cases hs : (match alistGet st.cron_submissions checkpoint.epoch with
      | some s => s
      | none => CronSubmission.new).submit digest submitter checkpoint with
  | error e =>
    simp only [hs, Bind.bind, Except.bind] at h
    cases h
  | ok p =>
    rcases p with ⟨sub', mvc⟩
    simp only [hs, Bind.bind, Except.bind] at h
    cases hds : sub'.derive_execution_status st.validators.total_count mvc with
    | ThresholdNotReached =>
      simp only [hds] at h
      cases h
      rfl
    | ReachingConsensus =>
      simp only [hds] at h
      cases h
      rfl
    | RoundAbort =>
      simp only [hds] at h
      cases h
      rfl
    | ConsensusReached =>
      simp only [hds] at h
      by_cases hif : st.last_cron_executed_epoch + st.cron_period
          ≠ checkpoint.epoch
      · rw [if_pos hif] at h
        cases h
        rfl
      · rw [if_neg hif] at h
        cases hm : sub'.load_most_submitted_checkpoint with
        | none =>
          simp only [hm] at h
          cases h
        | some mcp =>
          simp only [hm] at h
          cases h
          rfl

/-- `execute_next_cron_epoch` never changes `check_period`. -/
theorem execute_next_cron_epoch_check_period (st : State) (st' : State)
    (msgs : Option (List StorableMsg))
    (h : Actor.execute_next_cron_epoch st = Except.ok (st', msgs)) :
    st'.check_period = st.check_period := by
  rw [Actor.execute_next_cron_epoch] at h
  cases hq : st.executable_epoch_queue with
  | none =>
    simp only [hq] at h
    cases h
    rfl
  | some queue =>
    simp only [hq] at h
    cases queue with
    | nil => cases h
    | cons epoch rest =>
      simp only [] at h
      by_cases hgt : epoch > st.last_cron_executed_epoch + st.cron_period
      · rw [if_pos hgt] at h
        cases h
        rfl
      · rw [if_neg hgt] at h
        cases hsub : alistGet st.cron_submissions epoch with
        | none =>
          simp only [hsub] at h
          cases h
        | some submission =>
          simp only [hsub] at h
          cases hm : submission.load_most_submitted_checkpoint with
          | none =>
            simp only [hm] at h
            cases h
          | some mcp =>
            simp only [hm] at h
            cases h
            rfl

/-- `bottomup_state_transition` never changes `check_period`. -/
theorem bottomup_state_transition_check_period (st : State) (msg : StorableMsg)
    (st' : State)
    (h : State.bottomup_state_transition st msg = Except.ok st') :
    st'.check_period = st.check_period := by
  rw [State.bottomup_state_transition] at h
  split_ifs at h
  all_goals cases h
  all_goals rfl

/-- C10: For every ConstructorParams, the State produced by the constructor
has `check_period` equal to `params.checkpoint_period` when that value is
strictly greater than DEFAULT_CHECKPOINT_PERIOD and equal to
DEFAULT_CHECKPOINT_PERIOD otherwise; hence in every reachable state
`check_period ≥ DEFAULT_CHECKPOINT_PERIOD`, even when the caller supplies a
smaller period (no embedded operation ever modifies `check_period`). -/
theorem c10_check_period_clamped (params : ConstructorParams) (st : State)
    (hst : Reachable st) :
    ((State.new params).check_period =
        if params.checkpoint_period > DEFAULT_CHECKPOINT_PERIOD then
          params.checkpoint_period
        else DEFAULT_CHECKPOINT_PERIOD)
    ∧ DEFAULT_CHECKPOINT_PERIOD ≤ st.check_period := by
  refine ⟨rfl, ?_⟩
  induction hst with
  | constructor p =>
    simp only [State.new]
    split_ifs with hgt
    · omega
    · omega
  | commit_child_check cidOf caller curr_epoch commit fee hr hs ih =>
    rw [commit_child_check_check_period _ _ _ _ _ _ _ hs]
    exact ih
  | cron_submission digest checkpoint submitter msgs hr hs ih =>
    rw [handle_cron_submission_check_period _ _ _ _ _ _ hs]
    exact ih
  | next_cron_epoch msgs hr hs ih =>
    rw [execute_next_cron_epoch_check_period _ _ _ hs]
    exact ih
  | bottomup msg hr hs ih =>
    rw [bottomup_state_transition_check_period _ _ _ hs]
    exact ih

/-- Witness for C10: a constructor called with checkpoint period 3 (below
the default 10) yields `check_period = 10 ≥ DEFAULT_CHECKPOINT_PERIOD`. -/
theorem c10_witness :
    ((State.new ⟨⟨[0]⟩, 3, 0, 10⟩).check_period =
        if (3 : Int) > DEFAULT_CHECKPOINT_PERIOD then (3 : Int)
        else DEFAULT_CHECKPOINT_PERIOD)
    ∧ DEFAULT_CHECKPOINT_PERIOD ≤ (State.new ⟨⟨[0]⟩, 3, 0, 10⟩).check_period :=
  c10_check_period_clamped ⟨⟨[0]⟩, 3, 0, 10⟩ (State.new ⟨⟨[0]⟩, 3, 0, 10⟩)
    (Reachable.constructor ⟨⟨[0]⟩, 3, 0, 10⟩)


end HSCA
